import Mathlib

/-!
Verification of the stock-bot price-collection and alerting core against
its implementation (`main.go` and the `services` fetcher).  The Go code is
shallowly embedded: `float64` arithmetic is modelled by exact rational
arithmetic, Go maps by association lists, `time.Time` by an explicit
calendar/clock record, and the bounded-concurrency fetch pool by a small
labelled transition system.
-/

/-- Day of week, mirroring Go `time.Weekday`. -/
inductive Weekday where
  | sunday
  | monday
  | tuesday
  | wednesday
  | thursday
  | friday
  | saturday
deriving DecidableEq, Repr

/-- The components of a Go `time.Time` that the program inspects: the
calendar date (`Year`, `Month`, `Day`), the clock (`Hour`, `Minute`) and
the `Weekday`. -/
structure DateTime where
  year : Int
  month : Nat
  day : Nat
  hour : Nat
  minute : Nat
  weekday : Weekday
deriving DecidableEq, Repr

/-- `alertThreshold` from `main.go`: alert on moves of at least 5 percent. -/
def alertThreshold : ℚ := 5

/-- `checkInterval` from `main.go`: scheduler tick interval in minutes. -/
def checkInterval : Nat := 15

/-- `realtimeCheckMinutes` from `main.go`: realtime sweep interval. -/
def realtimeCheckMinutes : Nat := 30

/-- `lastAlertSentMap` from `main.go`: a Go map from symbol to the time the
last alert was sent, modelled as an association list in which the most
recent binding shadows older ones. -/
abbrev AlertMap := List (String × DateTime)

/-- Lookup in the alert map (Go map indexing `lastAlertSentMap[symbol]`). -/
def alertLookup : AlertMap → String → Option DateTime
  | [], _ => none
  | (s', t) :: rest, s => if s = s' then some t else alertLookup rest s

/-- `resetAlertMap` (`main.go`): replace the whole map with a fresh empty
one (`lastAlertSentMap = make(map[string]time.Time)`). -/
def resetAlertMap (_m : AlertMap) : AlertMap := []

/-- `canSendAlert` (`main.go`): true iff no entry exists for the symbol, or
the stored time differs from `now` in its day, month or year component. -/
def canSendAlert (m : AlertMap) (symbol : String) (now : DateTime) : Bool :=
  match alertLookup m symbol with
  | none => true
  | some lastSent =>
      lastSent.day != now.day || lastSent.month != now.month || lastSent.year != now.year

/-- `markAlertSent` (`main.go`): store the current time for the symbol. -/
def markAlertSent (m : AlertMap) (symbol : String) (now : DateTime) : AlertMap :=
  (symbol, now) :: m

/-- C1: `canSendAlert` returns true iff the alert map has no entry for the
symbol or the stored entry's timestamp differs from the current time in at
least one of its year, month or day-of-month components (a calendar-date
comparison, not a 24-hour rolling window); consequently, after
`markAlertSent`, `canSendAlert` for that symbol is false exactly as long
as the calendar date is unchanged. -/
theorem canSendAlert_calendar_gate (m : AlertMap) (s : String) (now : DateTime) :
    (canSendAlert m s now = true ↔
      alertLookup m s = none ∨
        ∃ lastSent, alertLookup m s = some lastSent ∧
          (lastSent.year ≠ now.year ∨ lastSent.month ≠ now.month ∨
            lastSent.day ≠ now.day)) ∧
    (∀ t now', canSendAlert (markAlertSent m s t) s now' =
      (t.year != now'.year || t.month != now'.month || t.day != now'.day)) := by
  constructor
  · cases h : alertLookup m s with
    | none => simp [canSendAlert, h]
    | some lastSent =>
        simp only [canSendAlert, h, Bool.or_eq_true, bne_iff_ne, ne_eq,
          Option.some.injEq, reduceCtorEq, false_or]
        constructor
        · intro hd
          exact ⟨lastSent, rfl, by tauto⟩
        · rintro ⟨l, hl, hor⟩
          cases hl
          tauto
  · intro t now'
    simp [canSendAlert, markAlertSent, alertLookup, Bool.or_comm, Bool.or_left_comm]

/-- C7: `resetAlertMap` is idempotent, and after it runs, `canSendAlert`
returns true for every symbol, including any symbol that had previously
been marked sent. -/
theorem resetAlertMap_idempotent_clears (m : AlertMap) :
    resetAlertMap (resetAlertMap m) = resetAlertMap m ∧
    (∀ s now, canSendAlert (resetAlertMap m) s now = true) ∧
    (∀ s t now now',
      canSendAlert (resetAlertMap (markAlertSent m s t)) s now' = true ∧
      canSendAlert (markAlertSent m s t) s now = false →
        canSendAlert (resetAlertMap (markAlertSent m s t)) s now' = true) := by
  exact ⟨rfl, fun s now => rfl, fun s t now now' _ => rfl⟩

/-- Database errors raised by `GetLatestClosingPrice`
(`services/database.go`); `noClosingPriceFound` is `ErrNoClosingPriceFound`. -/
inductive DbErr where
  | noClosingPriceFound
  | queryFailed
deriving DecidableEq, Repr

/-- `models.PriceAlert` with the `float64` fields modelled as rationals. -/
structure PriceAlert where
  symbol : String
  previousPrice : ℚ
  currentPrice : ℚ
  percentChange : ℚ
  timestamp : DateTime
deriving DecidableEq, Repr

/-- `math.Abs`, written out so that it evaluates. -/
def mathAbs (q : ℚ) : ℚ := if q < 0 then -q else q

lemma mathAbs_eq_abs (q : ℚ) : mathAbs q = |q| := by
  rw [mathAbs]
  split
  · rw [abs_of_neg]
    assumption
  · rw [abs_of_nonneg]
    exact le_of_not_lt (by assumption)

/-- `checkPriceChange` (`main.go`).  The `strconv.ParseFloat` of the raw
price string is abstracted as its outcome `parsed : Option ℚ` and the
`db.GetLatestClosingPrice` call as its outcome `dbRes : Except DbErr ℚ`;
every database error (including `ErrNoClosingPriceFound`) yields no alert,
as in the source.  The `db.SavePrice` side effect on qualification does
not influence the returned alert and is not modelled. -/
def checkPriceChange (parsed : Option ℚ) (dbRes : Except DbErr ℚ)
    (symbol : String) (now : DateTime) : Option PriceAlert :=
  match parsed with
  | none => none
  | some currentPrice =>
    match dbRes with
    | .error _ => none
    | .ok previousPrice =>
      if previousPrice = 0 then none
      else
        let percentChange := (currentPrice - previousPrice) / previousPrice * 100
        if alertThreshold ≤ mathAbs percentChange then
          some ⟨symbol, previousPrice, currentPrice, percentChange, now⟩
        else none

/-- C2: the price-change evaluator returns an alert iff the current price
parses, a previous closing price exists and is nonzero, and the absolute
value of `(current - previous) / previous * 100` reaches the threshold
5.0; concretely, previous 100 and current 106 alerts with percent change
6, previous 100 and current 104 does not alert, and a previous price of 0
or a missing previous price never alerts. -/
theorem checkPriceChange_threshold_spec (now : DateTime) :
    (∀ parsed dbRes s,
      (∃ a, checkPriceChange parsed dbRes s now = some a) ↔
        ∃ cur prev, parsed = some cur ∧ dbRes = Except.ok prev ∧ prev ≠ 0 ∧
          alertThreshold ≤ |(cur - prev) / prev * 100|) ∧
    ((checkPriceChange (some 106) (Except.ok 100) "AAPL" now).map
        PriceAlert.percentChange = some 6) ∧
    (checkPriceChange (some 104) (Except.ok 100) "AAPL" now = none) ∧
    (∀ cur s, checkPriceChange (some cur) (Except.ok 0) s now = none) ∧
    (∀ cur s e, checkPriceChange (some cur) (Except.error e) s now = none) ∧
    (∀ dbRes s, checkPriceChange none dbRes s now = none) := by
  refine ⟨?_, ?_, ?_, ?_, ?_, ?_⟩
  · intro parsed dbRes s
    constructor
    · rintro ⟨a, ha⟩
      cases parsed with
      | none => simp [checkPriceChange] at ha
      | some cur =>
        cases dbRes with
        | error e => simp [checkPriceChange] at ha
        | ok prev =>
          by_cases h0 : prev = 0
          · simp [checkPriceChange, mathAbs_eq_abs, h0] at ha
          · by_cases hth : alertThreshold ≤ |(cur - prev) / prev * 100|
            · exact ⟨cur, prev, rfl, rfl, h0, hth⟩
            · simp [checkPriceChange, mathAbs_eq_abs, h0, hth] at ha
    · rintro ⟨cur, prev, hp, hd, h0, hth⟩
      subst hp
      subst hd
      exact ⟨⟨s, prev, cur, (cur - prev) / prev * 100, now⟩,
        by simp [checkPriceChange, mathAbs_eq_abs, h0, hth]⟩
  · have h5 : alertThreshold ≤ |((106 : ℚ) - 100) / 100 * 100| := by
      rw [alertThreshold]
      norm_num
    simp [checkPriceChange, mathAbs_eq_abs, h5]
    rw [alertThreshold]
    norm_num
  · have h5 : ¬ alertThreshold ≤ |((104 : ℚ) - 100) / 100 * 100| := by
      rw [alertThreshold]
      norm_num
    simp [checkPriceChange, mathAbs_eq_abs, h5]
    rw [alertThreshold]
    norm_num
  · intro cur s
    simp [checkPriceChange]
  · intro cur s e
    simp [checkPriceChange]
  · intro dbRes s
    simp [checkPriceChange]

/-- The retryable failure kinds of one fetch attempt
(`services/fetcher.go`): context timeout or cancellation, or any other
browser/navigation error.  Every kind makes the retry loop continue. -/
inductive AttemptErr where
  | timeout
  | canceled
  | navigation (msg : String)
deriving DecidableEq, Repr

/-- The value a `FetchPrice` call returns: a price string, a wrapped
`ErrPriceFetchFailed` holding the last attempt's error, or
`ErrElementNotFound` (the post-loop empty-price branch). -/
inductive FetchOutcome where
  | ok (price : String)
  | fetchFailed (last : AttemptErr)
  | elementNotFound
deriving DecidableEq, Repr

/-- The retry loop of `FetchPrice` (`services/fetcher.go`): attempt `i` is
the `chromedp.Run` of iteration `i`, abstracted as `f i`; `lastErr` is the
`err` variable carried across iterations, and `remaining` the iterations
the bound `attempt < pf.MaxRetries` still allows.  A successful attempt
returns at once; when the loop ends, a recorded error becomes a wrapped
`ErrPriceFetchFailed` and otherwise the still-empty `price` becomes
`ErrElementNotFound`.  The second component counts attempts performed. -/
def fetchPriceLoop (f : Nat → Except AttemptErr String) :
    Nat → Option AttemptErr → Nat → FetchOutcome × Nat
  | i, lastErr, 0 =>
      match lastErr with
      | some e => (FetchOutcome.fetchFailed e, i)
      | none => (FetchOutcome.elementNotFound, i)
  | i, _lastErr, remaining + 1 =>
      match f i with
      | .ok price => (FetchOutcome.ok price, i + 1)
      | .error e => fetchPriceLoop f (i + 1) (some e) remaining

/-- `FetchPrice` (`services/fetcher.go`), as the retry loop started at
attempt 0 with no recorded error and `MaxRetries` iterations allowed. -/
def FetchPrice (f : Nat → Except AttemptErr String) (maxRetries : Nat) :
    FetchOutcome × Nat :=
  fetchPriceLoop f 0 none maxRetries

/-- `MaxRetries` as set by `NewPriceFetcher`. -/
def defaultMaxRetries : Nat := 3

lemma fetchPriceLoop_step (f : Nat → Except AttemptErr String) (i : Nat)
    (le : Option AttemptErr) (n : Nat) :
    fetchPriceLoop f i le (n + 1) =
      match f i with
      | .ok price => (FetchOutcome.ok price, i + 1)
      | .error e => fetchPriceLoop f (i + 1) (some e) n := rfl

lemma fetchPriceLoop_all_timeout (f : Nat → Except AttemptErr String)
    (hf : ∀ i, f i = Except.error AttemptErr.timeout) :
    ∀ (n i : Nat) (le : Option AttemptErr),
      fetchPriceLoop f i le (n + 1) = (FetchOutcome.fetchFailed AttemptErr.timeout, i + (n + 1)) := by
  intro n
  induction n with
  | zero =>
      intro i le
      simp [fetchPriceLoop, hf i]
  | succ m ih =>
      intro i le
      rw [fetchPriceLoop_step, hf i]
      show fetchPriceLoop f (i + 1) (some AttemptErr.timeout) (m + 1) = _
      rw [ih (i + 1) (some AttemptErr.timeout)]
      simp only [Prod.mk.injEq, true_and]
      omega

lemma fetchPriceLoop_first_success (f : Nat → Except AttemptErr String) :
    ∀ (k i n : Nat) (le : Option AttemptErr) (p : String), k < n → f (i + k) = Except.ok p →
      (∀ j, j < k → ∃ e, f (i + j) = Except.error e) →
      fetchPriceLoop f i le n = (FetchOutcome.ok p, i + k + 1) := by
  intro k
  induction k with
  | zero =>
      intro i n le p hk hok _herr
      obtain ⟨m, rfl⟩ : ∃ m, n = m + 1 := ⟨n - 1, by omega⟩
      simp only [fetchPriceLoop]
      rw [show i + 0 = i from rfl] at hok
      rw [hok]
  | succ k' ih =>
      intro i n le p hk hok herr
      obtain ⟨m, rfl⟩ : ∃ m, n = m + 1 := ⟨n - 1, by omega⟩
      obtain ⟨e, he⟩ := herr 0 (Nat.succ_pos k')
      rw [show i + 0 = i from rfl] at he
      simp only [fetchPriceLoop, he]
      have hok' : f (i + 1 + k') = Except.ok p := by
        rw [show i + 1 + k' = i + (k' + 1) from by omega]
        exact hok
      have herr' : ∀ j, j < k' → ∃ e', f (i + 1 + j) = Except.error e' := by
        intro j hj
        rw [show i + 1 + j = i + (j + 1) from by omega]
        exact herr (j + 1) (by omega)
      rw [ih (i + 1) m (some e) p (by omega) hok' herr']
      simp only [Prod.mk.injEq, true_and]
      omega

lemma fetchPriceLoop_all_fail (f : Nat → Except AttemptErr String) :
    ∀ (n i : Nat) (le : Option AttemptErr),
      (∀ j, j < n + 1 → ∃ e, f (i + j) = Except.error e) →
      ∃ e, fetchPriceLoop f i le (n + 1) = (FetchOutcome.fetchFailed e, i + (n + 1)) := by
  intro n
  induction n with
  | zero =>
      intro i le herr
      obtain ⟨e, he⟩ := herr 0 Nat.one_pos
      rw [show i + 0 = i from rfl] at he
      refine ⟨e, ?_⟩
      simp [fetchPriceLoop, he]
  | succ m ih =>
      intro i le herr
      obtain ⟨e, he⟩ := herr 0 (Nat.succ_pos (m + 1))
      rw [show i + 0 = i from rfl] at he
      have herr' : ∀ j, j < m + 1 → ∃ e', f (i + 1 + j) = Except.error e' := by
        intro j hj
        rw [show i + 1 + j = i + (j + 1) from by omega]
        exact herr (j + 1) (by omega)
      obtain ⟨e', he'⟩ := ih (i + 1) (some e) herr'
      refine ⟨e', ?_⟩
      rw [fetchPriceLoop_step, he]
      show fetchPriceLoop f (i + 1) (some e) (m + 1) = _
      rw [he']
      simp only [Prod.mk.injEq, true_and]
      omega

lemma fetchPriceLoop_ne_elementNotFound (f : Nat → Except AttemptErr String) :
    ∀ (n i : Nat) (le : Option AttemptErr), 1 ≤ n ∨ le.isSome = true →
      (fetchPriceLoop f i le n).1 ≠ FetchOutcome.elementNotFound := by
  intro n
  induction n with
  | zero =>
      intro i le hle
      rcases hle with h1 | hs
      · omega
      · obtain ⟨e, rfl⟩ := Option.isSome_iff_exists.mp hs
        simp [fetchPriceLoop]
  | succ m ih =>
      intro i le _hle
      cases hf : f i with
      | ok p => simp [fetchPriceLoop, hf]
      | error e =>
          simp only [fetchPriceLoop, hf]
          exact ih (i + 1) (some e) (Or.inr rfl)

/-- C3: a `FetchPrice` call whose attempts all fail with a timeout performs
the attempt exactly `MaxRetries` times (the bound of the retry loop) and
then returns the wrapped permanent fetch-failure error; a call whose first
attempt succeeds performs one attempt and zero retries and returns that
price. -/
theorem FetchPrice_retry_budget (maxRetries : Nat) (h : 1 ≤ maxRetries) :
    (∀ f, (∀ i, f i = Except.error AttemptErr.timeout) →
      FetchPrice f maxRetries =
        (FetchOutcome.fetchFailed AttemptErr.timeout, maxRetries)) ∧
    (∀ f p, f 0 = Except.ok p →
      FetchPrice f maxRetries = (FetchOutcome.ok p, 1)) := by
  constructor
  · intro f hf
    obtain ⟨m, rfl⟩ : ∃ m, maxRetries = m + 1 := ⟨maxRetries - 1, by omega⟩
    rw [FetchPrice, fetchPriceLoop_all_timeout f hf m 0 none, Nat.zero_add]
  · intro f p hok
    rw [FetchPrice,
      fetchPriceLoop_first_success f 0 0 maxRetries none p h hok (fun j hj => by omega)]

/-- Closed instance of C3 at the default retry budget 3: all-timeout
attempts give the wrapped fetch failure after 3 attempts, and a
first-attempt success returns after 1 attempt. -/
theorem FetchPrice_retry_budget_witness :
    FetchPrice (fun _ => Except.error AttemptErr.timeout) defaultMaxRetries =
      (FetchOutcome.fetchFailed AttemptErr.timeout, 3) ∧
    FetchPrice (fun _ => Except.ok "187.44") defaultMaxRetries =
      (FetchOutcome.ok "187.44", 1) :=
  ⟨(FetchPrice_retry_budget defaultMaxRetries (by decide)).1 _ (fun _ => rfl),
   (FetchPrice_retry_budget defaultMaxRetries (by decide)).2 _ _ rfl⟩

/-- C9: with `MaxRetries` at least 1, `FetchPrice` never returns
`ErrElementNotFound`: the first successful attempt's (possibly empty)
price string is returned with no error, and when every attempt fails the
result wraps `ErrPriceFetchFailed`; the post-loop empty-price branch is
unreachable. -/
theorem FetchPrice_never_elementNotFound (f : Nat → Except AttemptErr String)
    (maxRetries : Nat) (h : 1 ≤ maxRetries) :
    (FetchPrice f maxRetries).1 ≠ FetchOutcome.elementNotFound ∧
    (∀ i p, i < maxRetries → f i = Except.ok p →
      (∀ j, j < i → ∃ e, f j = Except.error e) →
      FetchPrice f maxRetries = (FetchOutcome.ok p, i + 1)) ∧
    ((∀ j, j < maxRetries → ∃ e, f j = Except.error e) →
      ∃ e, FetchPrice f maxRetries = (FetchOutcome.fetchFailed e, maxRetries)) := by
  refine ⟨?_, ?_, ?_⟩
  · exact fetchPriceLoop_ne_elementNotFound f maxRetries 0 none (Or.inl h)
  · intro i p hi hok herr
    have hok' : f (0 + i) = Except.ok p := by
      rw [Nat.zero_add]
      exact hok
    have herr' : ∀ j, j < i → ∃ e, f (0 + j) = Except.error e := by
      intro j hj
      rw [Nat.zero_add]
      exact herr j hj
    rw [FetchPrice, fetchPriceLoop_first_success f i 0 maxRetries none p hi hok' herr']
    rw [Nat.zero_add]
  · intro herr
    obtain ⟨m, rfl⟩ : ∃ m, maxRetries = m + 1 := ⟨maxRetries - 1, by omega⟩
    have herr' : ∀ j, j < m + 1 → ∃ e, f (0 + j) = Except.error e := by
      intro j hj
      rw [Nat.zero_add]
      exact herr j hj
    obtain ⟨e, he⟩ := fetchPriceLoop_all_fail f m 0 none herr'
    rw [Nat.zero_add] at he
    exact ⟨e, he⟩

/-- Closed instance of C9: attempts fail until attempt 1 succeeds with the
empty price string, which is returned as a success after 2 attempts, and
the result is not `ErrElementNotFound`. -/
theorem FetchPrice_never_elementNotFound_witness :
    (FetchPrice (fun i => if i = 1 then Except.ok "" else Except.error AttemptErr.timeout)
        defaultMaxRetries).1 ≠ FetchOutcome.elementNotFound ∧
    FetchPrice (fun i => if i = 1 then Except.ok "" else Except.error AttemptErr.timeout)
        defaultMaxRetries = (FetchOutcome.ok "", 2) :=
  ⟨(FetchPrice_never_elementNotFound _ defaultMaxRetries (by decide)).1,
   (FetchPrice_never_elementNotFound _ defaultMaxRetries (by decide)).2.1 1 ""
     (by decide) rfl
     (fun j hj => by
        have hj0 : j = 0 := by omega
        subst hj0
        exact ⟨AttemptErr.timeout, rfl⟩)⟩

/-- `GetURLs` (`services/fetcher.go`): the Yahoo quote URL per ticker. -/
def GetURLs (tickers : List String) : List (String × String) :=
  tickers.map fun t => (t, "https://finance.yahoo.com/quote/" ++ t ++ "/")

/-- `FetchPriceConcurrent` (`services/fetcher.go`).  The fan-out/fan-in
barrier over the semaphore-bounded goroutines is erased: each ticker's
`FetchPrice` call on its URL is abstracted as `f ticker`, the collected
result map is the association list keyed by symbol, and the Go function's
error result — which the source always leaves `nil` — is the second
component.  `maxConcurrency` only shapes scheduling and is kept as an
unused parameter. -/
def FetchPriceConcurrent (f : String → FetchOutcome) (tickers : List String)
    (_maxConcurrency : Nat) : List (String × FetchOutcome) × Option String :=
  (tickers.map fun t => (t, f t), none)

/-- C4 counterexample: on the empty symbol set, `FetchPriceConcurrent`
returns an empty result map and a nil error, not an error as the claim
states. -/
theorem FetchPriceConcurrent_empty_ok :
    (FetchPriceConcurrent (fun _ => FetchOutcome.fetchFailed AttemptErr.timeout) [] 5).2
        = none ∧
    (FetchPriceConcurrent (fun _ => FetchOutcome.fetchFailed AttemptErr.timeout) [] 5).1
        = [] := ⟨rfl, rfl⟩

/-- C4 (amended): `FetchPriceConcurrent` never returns an error — for
every fetch function, symbol list and concurrency limit it returns the
per-symbol result map (empty for the empty list) with a nil error, and
every requested symbol is present in the map, including when some or all
per-symbol fetches fail. -/
theorem FetchPriceConcurrent_always_ok (f : String → FetchOutcome)
    (tickers : List String) (k : Nat) :
    (FetchPriceConcurrent f tickers k).2 = none ∧
    (FetchPriceConcurrent f tickers k).1.map Prod.fst = tickers ∧
    (∀ t, t ∈ tickers → (t, f t) ∈ (FetchPriceConcurrent f tickers k).1) := by
  refine ⟨rfl, ?_, ?_⟩
  · simp [FetchPriceConcurrent, Function.comp_def]
  · intro t ht
    simp only [FetchPriceConcurrent, List.mem_map]
    exact ⟨t, ht, rfl⟩

/-- Closed instance of C4 (amended): with one failing and one succeeding
symbol the call still returns both results and a nil error. -/
theorem FetchPriceConcurrent_always_ok_witness :
    (FetchPriceConcurrent
        (fun t => if t = "AAPL" then FetchOutcome.fetchFailed AttemptErr.timeout
          else FetchOutcome.ok "150.00") ["AAPL", "GOOGL"] 5).2 = none ∧
    (FetchPriceConcurrent
        (fun t => if t = "AAPL" then FetchOutcome.fetchFailed AttemptErr.timeout
          else FetchOutcome.ok "150.00") ["AAPL", "GOOGL"] 5).1 =
      [("AAPL", FetchOutcome.fetchFailed AttemptErr.timeout),
       ("GOOGL", FetchOutcome.ok "150.00")] :=
  ⟨(FetchPriceConcurrent_always_ok _ ["AAPL", "GOOGL"] 5).1, by decide⟩

/-- Phase of one ticker's goroutine in `FetchPriceConcurrent`
(`services/fetcher.go`): it has not yet acquired the semaphore, it holds a
slot with its fetch in flight, or it has released the slot. -/
inductive TaskPhase where
  | pending
  | inFlight
  | finished
deriving DecidableEq, Repr

/-- Whether a goroutine currently holds a semaphore slot. -/
def isInFlight : TaskPhase → Bool
  | TaskPhase.inFlight => true
  | _ => false

/-- Number of fetches in flight in a pool state. -/
def inFlightCount (s : List TaskPhase) : Nat := s.countP isInFlight

/-- One scheduler step of the fetch pool of `FetchPriceConcurrent`.  The
buffered channel `sem` of capacity `k` admits `sem <- struct{}{}` only
while fewer than `k` slots are taken, so a pending goroutine may enter
flight only under that guard; a goroutine in flight may finish, releasing
its slot (`<-sem`). -/
inductive PoolStep (k : Nat) : List TaskPhase → List TaskPhase → Prop where
  | acquire (l r : List TaskPhase) :
      inFlightCount (l ++ TaskPhase.pending :: r) < k →
      PoolStep k (l ++ TaskPhase.pending :: r) (l ++ TaskPhase.inFlight :: r)
  | release (l r : List TaskPhase) :
      PoolStep k (l ++ TaskPhase.inFlight :: r) (l ++ TaskPhase.finished :: r)

/-- The pool states reachable during a `FetchPriceConcurrent` call with
concurrency limit `k` over `n` symbols: all `n` goroutines start pending
and the state evolves by `PoolStep`. -/
inductive PoolReachable (k n : Nat) : List TaskPhase → Prop where
  | init : PoolReachable k n (List.replicate n TaskPhase.pending)
  | step {s s' : List TaskPhase} :
      PoolReachable k n s → PoolStep k s s' → PoolReachable k n s'

lemma inFlightCount_replicate_pending (n : Nat) :
    inFlightCount (List.replicate n TaskPhase.pending) = 0 := by
  induction n with
  | zero => rfl
  | succ m ih =>
      simp only [List.replicate_succ, inFlightCount, List.countP_cons, isInFlight]
      simpa [inFlightCount] using ih

/-- C8: for every concurrency limit `k` and every pool state reachable
during a `FetchPriceConcurrent` call over `n` symbols, at most `k`
per-symbol fetches are in flight; a pending fetch can only start when a
slot is free. -/
theorem FetchPriceConcurrent_inflight_bound (k n : Nat) (s : List TaskPhase)
    (h : PoolReachable k n s) : inFlightCount s ≤ k := by
  induction h with
  | init => simp [inFlightCount_replicate_pending]
  | step _hr hs ih =>
      cases hs with
      | acquire l r hlt =>
          simp [inFlightCount, List.countP_append, List.countP_cons,
            isInFlight] at hlt ih ⊢
          omega
      | release l r =>
          simp [inFlightCount, List.countP_append, List.countP_cons,
            isInFlight] at ih ⊢
          omega

/-- Closed instance of C8: with limit 1 and two symbols, after one acquire
step the reachable state has at most one fetch in flight. -/
theorem FetchPriceConcurrent_inflight_bound_witness :
    inFlightCount [TaskPhase.inFlight, TaskPhase.pending] ≤ 1 :=
  FetchPriceConcurrent_inflight_bound 1 2 [TaskPhase.inFlight, TaskPhase.pending]
    (PoolReachable.step PoolReachable.init
      (PoolStep.acquire [] [TaskPhase.pending] (by decide)))

/-- The loop in `fetchAllPrices` (`main.go`) that keeps the successful
(symbol, price-string) pairs of a fetch cycle, skipping every
`PriceResult` whose `Error` is non-nil. -/
def fetchSuccesses (results : List (String × FetchOutcome)) : List (String × String) :=
  results.filterMap fun sr =>
    match sr.2 with
    | FetchOutcome.ok p => some (sr.1, p)
    | _ => none

/-- `fetchAllPrices` (`main.go`), with the per-symbol outcomes of
`FetchPriceConcurrent` taken as the input: when every fetch failed
(`successCount == 0`) the whole cycle fails, otherwise the successful
prices are returned. -/
def fetchAllPrices (results : List (String × FetchOutcome)) :
    Except String (List (String × String)) :=
  if (fetchSuccesses results).length = 0 then
    Except.error "failed to fetch any stock prices"
  else Except.ok (fetchSuccesses results)

/-- The per-symbol loop of `checkRealtimePriceChanges` (`main.go`): a
symbol whose alert gate admits it and whose price change qualifies has
its alert appended and is marked sent; the sweep's single logical time
`now` stands for the `time.Now()` calls of one tick. -/
def sweepLoop (db : String → Except DbErr ℚ) (parse : String → Option ℚ)
    (now : DateTime) : AlertMap → List (String × String) → AlertMap × List PriceAlert
  | m, [] => (m, [])
  | m, (symbol, priceStr) :: rest =>
    if canSendAlert m symbol now then
      match checkPriceChange (parse priceStr) (db symbol) symbol now with
      | some alert =>
          ((sweepLoop db parse now (markAlertSent m symbol now) rest).1,
            alert :: (sweepLoop db parse now (markAlertSent m symbol now) rest).2)
      | none => sweepLoop db parse now m rest
    else sweepLoop db parse now m rest

/-- What one `checkRealtimePriceChanges` call did: the alert map it left
behind, the batch `SendAlerts` was called with (none when the call was
skipped), and the messenger's result, which the source only logs. -/
structure SweepResult where
  alertMap : AlertMap
  sentBatch : Option (List PriceAlert)
  sendOk : Option Bool
deriving DecidableEq, Repr

/-- `checkRealtimePriceChanges` (`main.go`): a failed fetch cycle returns
at once; otherwise all qualifying alerts are collected while their
symbols are marked sent, and `SendAlerts` is called once iff the batch is
nonempty — its success or failure (`sendAlerts`) is logged only. -/
def checkRealtimePriceChanges (sendAlerts : List PriceAlert → Bool)
    (db : String → Except DbErr ℚ) (parse : String → Option ℚ) (now : DateTime)
    (results : List (String × FetchOutcome)) (m : AlertMap) : SweepResult :=
  match fetchAllPrices results with
  | .error _ => ⟨m, none, none⟩
  | .ok prices =>
      if (sweepLoop db parse now m prices).2.isEmpty then
        ⟨(sweepLoop db parse now m prices).1, none, none⟩
      else
        ⟨(sweepLoop db parse now m prices).1, some (sweepLoop db parse now m prices).2,
          some (sendAlerts (sweepLoop db parse now m prices).2)⟩

/-- `sendDailyReport` (`main.go`): a failed fetch cycle sends nothing;
otherwise `SendMessage` is called with the price map (its delivery result
is only logged). -/
def sendDailyReport (results : List (String × FetchOutcome)) :
    Option (List (String × String)) :=
  match fetchAllPrices results with
  | .error _ => none
  | .ok prices => some prices

/-- `now.Format("2006-01-02")` restricted to what the program compares:
an injective-enough rendering of the calendar date. -/
def formatDate (d : DateTime) : String :=
  toString d.year ++ "-" ++ toString d.month ++ "-" ++ toString d.day

/-- `isMarketOpen` (`main.go`): false on Saturday and Sunday, otherwise
true iff the hour lies in 21..23 or 0..7. -/
def isMarketOpen (now : DateTime) : Bool :=
  if now.weekday = Weekday.saturday ∨ now.weekday = Weekday.sunday then false
  else decide ((21 ≤ now.hour ∧ now.hour ≤ 23) ∨ (0 ≤ now.hour ∧ now.hour ≤ 7))

/-- The scheduler's mutable state (`main.go`): the global
`lastProcessedDate` string and the alert map. -/
structure BotState where
  lastProcessedDate : String
  alertMap : AlertMap
deriving DecidableEq, Repr

/-- The observable notification activity of one scheduler tick. -/
structure TickEvents where
  summarySent : Option (List (String × String))
  realtimeChecked : Bool
  alertsSent : Option (List PriceAlert)
deriving DecidableEq, Repr

/-- `checkAndProcess` (`main.go`): one scheduler tick at local time `now`.
The daily-report branch fires when the hour matches, the minute is within
the tick interval and today was not yet processed; it sends the report,
records today and resets the alert map, in the source's order but with
the same final state.  The realtime branch runs only while the market is
open, at minutes that are multiples of the realtime interval.  Both
branches consume the same fetch-cycle outcome `results`. -/
def checkAndProcess (sendAlerts : List PriceAlert → Bool)
    (db : String → Except DbErr ℚ) (parse : String → Option ℚ)
    (checkHour : Nat) (now : DateTime) (results : List (String × FetchOutcome))
    (st : BotState) : BotState × TickEvents :=
  let step1 : BotState × Option (List (String × String)) :=
    if now.hour = checkHour ∧ now.minute < checkInterval ∧
        st.lastProcessedDate ≠ formatDate now then
      (⟨formatDate now, resetAlertMap st.alertMap⟩, sendDailyReport results)
    else (st, none)
  if !isMarketOpen now then (step1.1, ⟨step1.2, false, none⟩)
  else if now.minute % realtimeCheckMinutes = 0 then
    (⟨step1.1.lastProcessedDate,
        (checkRealtimePriceChanges sendAlerts db parse now results step1.1.alertMap).alertMap⟩,
      ⟨step1.2, true,
        (checkRealtimePriceChanges sendAlerts db parse now results step1.1.alertMap).sentBatch⟩)
  else (step1.1, ⟨step1.2, false, none⟩)

/-- The alerts of one sweep as the spec describes them: for each
successfully fetched pair, those admitted by the alert gate in its
pre-sweep state whose price change qualifies. -/
def qualifyingAlerts (db : String → Except DbErr ℚ) (parse : String → Option ℚ)
    (now : DateTime) (m : AlertMap) (results : List (String × FetchOutcome)) :
    List PriceAlert :=
  (fetchSuccesses results).filterMap fun sp =>
    if canSendAlert m sp.1 now then checkPriceChange (parse sp.2) (db sp.1) sp.1 now
    else none

lemma alertLookup_markAlertSent (m : AlertMap) (s s' : String) (t : DateTime) :
    alertLookup (markAlertSent m s t) s' = if s' = s then some t else alertLookup m s' :=
  rfl

lemma canSendAlert_markAlertSent_ne (m : AlertMap) (s s' : String) (t now : DateTime)
    (h : s' ≠ s) : canSendAlert (markAlertSent m s t) s' now = canSendAlert m s' now := by
  simp [canSendAlert, alertLookup_markAlertSent, h]

lemma checkPriceChange_some_fields (parsed : Option ℚ) (dbRes : Except DbErr ℚ)
    (s : String) (now : DateTime) (a : PriceAlert)
    (h : checkPriceChange parsed dbRes s now = some a) :
    a.symbol = s ∧ a.timestamp = now := by
  cases parsed with
  | none => simp [checkPriceChange] at h
  | some cur =>
      cases dbRes with
      | error e => simp [checkPriceChange] at h
      | ok prev =>
          by_cases h0 : prev = 0
          · simp [checkPriceChange, mathAbs_eq_abs, h0] at h
          · by_cases hth : alertThreshold ≤ |(cur - prev) / prev * 100|
            · simp only [checkPriceChange, mathAbs_eq_abs, h0, if_false, hth, if_true,
                Option.some.injEq] at h
              rw [← h]
              exact ⟨rfl, rfl⟩
            · simp [checkPriceChange, mathAbs_eq_abs, h0, hth] at h

lemma sweepLoop_alerts (db : String → Except DbErr ℚ) (parse : String → Option ℚ)
    (now : DateTime) :
    ∀ (l : List (String × String)) (m : AlertMap), (l.map Prod.fst).Nodup →
      (sweepLoop db parse now m l).2 =
        l.filterMap (fun sp => if canSendAlert m sp.1 now then
          checkPriceChange (parse sp.2) (db sp.1) sp.1 now else none) := by
  intro l
  induction l with
  | nil =>
      intro m _h
      rfl
  | cons hd tl ih =>
      intro m hnd
      obtain ⟨s, p⟩ := hd
      rw [List.map_cons] at hnd
      obtain ⟨hs, htl⟩ := List.nodup_cons.mp hnd
      by_cases hcs : canSendAlert m s now = true
      · cases hcp : checkPriceChange (parse p) (db s) s now with
        | none =>
            simp only [sweepLoop, hcs, if_true, hcp, List.filterMap_cons]
            exact ih m htl
        | some alert =>
            simp only [sweepLoop, hcs, if_true, hcp, List.filterMap_cons]
            rw [ih (markAlertSent m s now) htl]
            have hcong :
                tl.filterMap (fun sp => if canSendAlert (markAlertSent m s now) sp.1 now
                    then checkPriceChange (parse sp.2) (db sp.1) sp.1 now else none) =
                tl.filterMap (fun sp => if canSendAlert m sp.1 now
                    then checkPriceChange (parse sp.2) (db sp.1) sp.1 now else none) := by
              apply List.filterMap_congr
              intro sp hsp
              have hne : sp.1 ≠ s := by
                intro he
                exact hs (List.mem_map.mpr ⟨sp, hsp, he⟩)
              rw [canSendAlert_markAlertSent_ne m s sp.1 now now hne]
            rw [hcong]
      · rw [Bool.not_eq_true] at hcs
        simp only [sweepLoop, hcs, Bool.false_eq_true, if_false, List.filterMap_cons]
        exact ih m htl

lemma sweepLoop_lookup_now (db : String → Except DbErr ℚ) (parse : String → Option ℚ)
    (now : DateTime) :
    ∀ (l : List (String × String)) (m : AlertMap) (s : String),
      alertLookup m s = some now →
      alertLookup (sweepLoop db parse now m l).1 s = some now := by
  intro l
  induction l with
  | nil =>
      intro m s h
      exact h
  | cons hd tl ih =>
      intro m s h
      obtain ⟨sym, p⟩ := hd
      by_cases hcs : canSendAlert m sym now = true
      · cases hcp : checkPriceChange (parse p) (db sym) sym now with
        | none =>
            simp only [sweepLoop, hcs, if_true, hcp]
            exact ih m s h
        | some alert =>
            simp only [sweepLoop, hcs, if_true, hcp]
            apply ih
            rw [alertLookup_markAlertSent]
            by_cases hss : s = sym
            · simp [hss]
            · simp only [hss, if_false]
              exact h
      · simp only [sweepLoop, hcs, if_false]
        exact ih m s h

lemma sweepLoop_alert_marked (db : String → Except DbErr ℚ) (parse : String → Option ℚ)
    (now : DateTime) :
    ∀ (l : List (String × String)) (m : AlertMap) (a : PriceAlert),
      a ∈ (sweepLoop db parse now m l).2 →
      alertLookup (sweepLoop db parse now m l).1 a.symbol = some now := by
  intro l
  induction l with
  | nil =>
      intro m a ha
      simp [sweepLoop] at ha
  | cons hd tl ih =>
      intro m a ha
      obtain ⟨sym, p⟩ := hd
      by_cases hcs : canSendAlert m sym now = true
      · cases hcp : checkPriceChange (parse p) (db sym) sym now with
        | none =>
            simp only [sweepLoop, hcs, if_true, hcp] at ha ⊢
            exact ih m a ha
        | some alert =>
            simp only [sweepLoop, hcs, if_true, hcp, List.mem_cons] at ha ⊢
            cases ha with
            | inl heq =>
                subst heq
                obtain ⟨hsym, _⟩ := checkPriceChange_some_fields _ _ _ _ _ hcp
                rw [hsym]
                apply sweepLoop_lookup_now
                rw [alertLookup_markAlertSent]
                simp
            | inr hmem =>
                exact ih (markAlertSent m sym now) a hmem
      · simp only [sweepLoop, hcs, if_false] at ha ⊢
        exact ih m a ha

/-- C6: the realtime sweep runs iff the market-open predicate holds and
the minute is a multiple of the realtime interval 30; the market-open
predicate is false on Saturday and Sunday, so the sweep never runs on a
weekend; and a sweep sends all qualifying alerts in one batched
`SendAlerts` call, skipped entirely when the batch is empty. -/
theorem checkAndProcess_realtime_sweep (sendAlerts : List PriceAlert → Bool)
    (db : String → Except DbErr ℚ) (parse : String → Option ℚ) (checkHour : Nat)
    (results : List (String × FetchOutcome)) (st : BotState) (now : DateTime)
    (hnd : ((fetchSuccesses results).map Prod.fst).Nodup) :
    ((checkAndProcess sendAlerts db parse checkHour now results st).2.realtimeChecked
        = (isMarketOpen now && decide (now.minute % realtimeCheckMinutes = 0))) ∧
    ((now.weekday = Weekday.saturday ∨ now.weekday = Weekday.sunday) →
      isMarketOpen now = false ∧
      (checkAndProcess sendAlerts db parse checkHour now results st).2.realtimeChecked
          = false ∧
      (checkAndProcess sendAlerts db parse checkHour now results st).2.alertsSent
          = none) ∧
    (∀ m, (checkRealtimePriceChanges sendAlerts db parse now results m).sentBatch =
      if (qualifyingAlerts db parse now m results).isEmpty then none
      else some (qualifyingAlerts db parse now m results)) := by
  refine ⟨?_, ?_, ?_⟩
  · by_cases hmo : isMarketOpen now = true
    · by_cases hm30 : now.minute % realtimeCheckMinutes = 0
      · simp [checkAndProcess, hmo, hm30]
      · simp [checkAndProcess, hmo, hm30]
    · rw [Bool.not_eq_true] at hmo
      simp [checkAndProcess, hmo]
  · intro hwe
    have hmo : isMarketOpen now = false := by
      simp [isMarketOpen, hwe]
    refine ⟨hmo, ?_, ?_⟩
    · simp [checkAndProcess, hmo]
    · simp [checkAndProcess, hmo]
  · intro m
    by_cases hlen : (fetchSuccesses results).length = 0
    · have hnil : fetchSuccesses results = [] := List.length_eq_zero.mp hlen
      simp [checkRealtimePriceChanges, fetchAllPrices, hlen, qualifyingAlerts, hnil]
    · have hok : fetchAllPrices results = Except.ok (fetchSuccesses results) := by
        simp [fetchAllPrices, hlen]
      simp only [checkRealtimePriceChanges, hok]
      rw [sweepLoop_alerts db parse now (fetchSuccesses results) m hnd]
      by_cases hq : ((fetchSuccesses results).filterMap fun sp =>
          if canSendAlert m sp.1 now then checkPriceChange (parse sp.2) (db sp.1) sp.1 now
          else none).isEmpty = true
      · simp [qualifyingAlerts, hq]
      · rw [Bool.not_eq_true] at hq
        simp [qualifyingAlerts, hq]

/-- Closed instance of C6: at Monday 22:30 with one fetched symbol, the
realtime sweep runs. -/
theorem checkAndProcess_realtime_sweep_witness :
    (checkAndProcess (fun _ => true) (fun _ => Except.ok 100) (fun _ => some 106) 7
        ⟨2025, 1, 6, 22, 30, Weekday.monday⟩ [("AAPL", FetchOutcome.ok "106")]
        ⟨"", []⟩).2.realtimeChecked = true :=
  ((checkAndProcess_realtime_sweep (fun _ => true) (fun _ => Except.ok 100)
      (fun _ => some 106) 7 [("AAPL", FetchOutcome.ok "106")] ⟨"", []⟩
      ⟨2025, 1, 6, 22, 30, Weekday.monday⟩ (by decide)).1).trans (by decide)

/-- C10: during a realtime sweep every qualifying symbol is marked sent
before the batched `SendAlerts` call is made, so after
`checkRealtimePriceChanges` returns, the alert map holds a same-day entry
for each symbol of the sent batch and `canSendAlert` for it is false for
any time of that calendar day — whatever the messenger call returned. -/
theorem checkRealtimePriceChanges_marks_sent (sendAlerts : List PriceAlert → Bool)
    (db : String → Except DbErr ℚ) (parse : String → Option ℚ) (now : DateTime)
    (results : List (String × FetchOutcome)) (m : AlertMap)
    (batch : List PriceAlert) (a : PriceAlert)
    (hb : (checkRealtimePriceChanges sendAlerts db parse now results m).sentBatch
        = some batch)
    (ha : a ∈ batch) :
    alertLookup (checkRealtimePriceChanges sendAlerts db parse now results m).alertMap
        a.symbol = some now ∧
    (∀ t, t.year = now.year → t.month = now.month → t.day = now.day →
      canSendAlert (checkRealtimePriceChanges sendAlerts db parse now results m).alertMap
        a.symbol t = false) := by
  by_cases hlen : (fetchSuccesses results).length = 0
  · exfalso
    simp [checkRealtimePriceChanges, fetchAllPrices, hlen] at hb
  · have hok : fetchAllPrices results = Except.ok (fetchSuccesses results) := by
      simp [fetchAllPrices, hlen]
    by_cases hemp : (sweepLoop db parse now m (fetchSuccesses results)).2.isEmpty = true
    · exfalso
      simp [checkRealtimePriceChanges, hok, hemp] at hb
    · rw [Bool.not_eq_true] at hemp
      have halm : (checkRealtimePriceChanges sendAlerts db parse now results m).alertMap
          = (sweepLoop db parse now m (fetchSuccesses results)).1 := by
        simp [checkRealtimePriceChanges, hok, hemp]
      have hbatch : batch = (sweepLoop db parse now m (fetchSuccesses results)).2 := by
        simp [checkRealtimePriceChanges, hok, hemp] at hb
        exact hb.symm
      have hmem : a ∈ (sweepLoop db parse now m (fetchSuccesses results)).2 :=
        hbatch ▸ ha
      have hlk := sweepLoop_alert_marked db parse now (fetchSuccesses results) m a hmem
      rw [halm]
      refine ⟨hlk, ?_⟩
      intro t hy hm' hd
      simp [canSendAlert, hlk, hy, hm', hd]

/-- Closed instance of C10: a 6 percent move on GOOGL is marked in the
alert map at sweep time, and the gate is closed for the rest of that day,
even with a messenger that always fails. -/
theorem checkRealtimePriceChanges_marks_sent_witness :
    alertLookup (checkRealtimePriceChanges (fun _ => false) (fun _ => Except.ok 100)
        (fun _ => some 106) ⟨2025, 1, 6, 22, 30, Weekday.monday⟩
        [("GOOGL", FetchOutcome.ok "106.00")] []).alertMap "GOOGL" =
      some ⟨2025, 1, 6, 22, 30, Weekday.monday⟩ ∧
    canSendAlert (checkRealtimePriceChanges (fun _ => false) (fun _ => Except.ok 100)
        (fun _ => some 106) ⟨2025, 1, 6, 22, 30, Weekday.monday⟩
        [("GOOGL", FetchOutcome.ok "106.00")] []).alertMap "GOOGL"
        ⟨2025, 1, 6, 23, 55, Weekday.monday⟩ = false := by
  have hth : alertThreshold ≤ mathAbs (((106 : ℚ) - 100) / 100 * 100) := by
    rw [mathAbs, if_neg (by norm_num), alertThreshold]
    norm_num
  have hcp : checkPriceChange (some 106) (Except.ok 100) "GOOGL"
      ⟨2025, 1, 6, 22, 30, Weekday.monday⟩ =
      some ⟨"GOOGL", 100, 106, ((106 : ℚ) - 100) / 100 * 100,
        ⟨2025, 1, 6, 22, 30, Weekday.monday⟩⟩ := by
    show (if (100 : ℚ) = 0 then none
      else if alertThreshold ≤ mathAbs (((106 : ℚ) - 100) / 100 * 100) then
        some (⟨"GOOGL", 100, 106, ((106 : ℚ) - 100) / 100 * 100,
          ⟨2025, 1, 6, 22, 30, Weekday.monday⟩⟩ : PriceAlert)
      else none) =
      some (⟨"GOOGL", 100, 106, ((106 : ℚ) - 100) / 100 * 100,
        ⟨2025, 1, 6, 22, 30, Weekday.monday⟩⟩ : PriceAlert)
    rw [if_neg (by norm_num), if_pos hth]
  have hb : (checkRealtimePriceChanges (fun _ => false) (fun _ => Except.ok 100)
      (fun _ => some 106) ⟨2025, 1, 6, 22, 30, Weekday.monday⟩
      [("GOOGL", FetchOutcome.ok "106.00")] []).sentBatch =
      some [⟨"GOOGL", 100, 106, ((106 : ℚ) - 100) / 100 * 100,
        ⟨2025, 1, 6, 22, 30, Weekday.monday⟩⟩] := by
    simp [checkRealtimePriceChanges, fetchAllPrices, fetchSuccesses, sweepLoop,
      canSendAlert, alertLookup, markAlertSent, hcp]
  have h := checkRealtimePriceChanges_marks_sent (fun _ => false) (fun _ => Except.ok 100)
      (fun _ => some 106) ⟨2025, 1, 6, 22, 30, Weekday.monday⟩
      [("GOOGL", FetchOutcome.ok "106.00")] []
      [⟨"GOOGL", 100, 106, ((106 : ℚ) - 100) / 100 * 100,
        ⟨2025, 1, 6, 22, 30, Weekday.monday⟩⟩]
      ⟨"GOOGL", 100, 106, ((106 : ℚ) - 100) / 100 * 100,
        ⟨2025, 1, 6, 22, 30, Weekday.monday⟩⟩
      hb (List.mem_singleton.mpr rfl)
  exact ⟨h.1, h.2 ⟨2025, 1, 6, 23, 55, Weekday.monday⟩ rfl rfl rfl⟩

lemma checkAndProcess_not_due (sendAlerts : List PriceAlert → Bool)
    (db : String → Except DbErr ℚ) (parse : String → Option ℚ)
    (checkHour : Nat) (now : DateTime) (results : List (String × FetchOutcome))
    (st : BotState)
    (hguard : ¬(now.hour = checkHour ∧ now.minute < checkInterval ∧
      st.lastProcessedDate ≠ formatDate now)) :
    (checkAndProcess sendAlerts db parse checkHour now results st).2.summarySent = none ∧
    (checkAndProcess sendAlerts db parse checkHour now results st).1.lastProcessedDate
      = st.lastProcessedDate := by
  by_cases hmo : isMarketOpen now = true
  · by_cases hm30 : now.minute % realtimeCheckMinutes = 0
    · constructor
      · simp [checkAndProcess, hguard, hmo, hm30]
      · simp [checkAndProcess, hguard, hmo, hm30]
    · constructor
      · simp [checkAndProcess, hguard, hmo, hm30]
      · simp [checkAndProcess, hguard, hmo, hm30]
  · rw [Bool.not_eq_true] at hmo
    constructor
    · simp [checkAndProcess, hguard, hmo]
    · simp [checkAndProcess, hguard, hmo]

/-- C5 counterexample: at the scheduled hour with every fetch failing, the
daily transition still records today as the last processed date (it
changes from the empty string to today) and still resets the alert map —
the claim says both would be left untouched.  Only the summary send is
skipped. -/
theorem checkAndProcess_total_failure_cex :
    (checkAndProcess (fun _ => true) (fun _ => Except.ok 100) (fun _ => some 106) 7
        ⟨2025, 1, 2, 7, 0, Weekday.thursday⟩
        [("AAPL", FetchOutcome.fetchFailed AttemptErr.timeout)]
        ⟨"", [("AAPL", ⟨2025, 1, 1, 22, 0, Weekday.wednesday⟩)]⟩).2.summarySent = none ∧
    (checkAndProcess (fun _ => true) (fun _ => Except.ok 100) (fun _ => some 106) 7
        ⟨2025, 1, 2, 7, 0, Weekday.thursday⟩
        [("AAPL", FetchOutcome.fetchFailed AttemptErr.timeout)]
        ⟨"", [("AAPL", ⟨2025, 1, 1, 22, 0, Weekday.wednesday⟩)]⟩).1.lastProcessedDate
      = "2025-1-2" ∧
    ("2025-1-2" : String) ≠ "" ∧
    (checkAndProcess (fun _ => true) (fun _ => Except.ok 100) (fun _ => some 106) 7
        ⟨2025, 1, 2, 7, 0, Weekday.thursday⟩
        [("AAPL", FetchOutcome.fetchFailed AttemptErr.timeout)]
        ⟨"", [("AAPL", ⟨2025, 1, 1, 22, 0, Weekday.wednesday⟩)]⟩).1.alertMap = [] := by
  refine ⟨by decide, by decide, by decide, by decide⟩

/-- C5 (amended): when the daily-report transition fires and its fetch
cycle yields zero successes, no summary notification is sent, but — unlike
the claim — today is still recorded as the last processed date and the
alert gate is still reset to empty, and the transition is therefore not
eligible to fire again on any later tick of the same calendar date: such a
tick sends no summary and leaves the recorded date unchanged. -/
theorem checkAndProcess_total_failure_spec (sendAlerts : List PriceAlert → Bool)
    (db : String → Except DbErr ℚ) (parse : String → Option ℚ)
    (checkHour : Nat) (now : DateTime) (results : List (String × FetchOutcome))
    (st : BotState)
    (hhour : now.hour = checkHour) (hmin : now.minute < checkInterval)
    (hnew : st.lastProcessedDate ≠ formatDate now)
    (hfail : fetchSuccesses results = []) :
    (checkAndProcess sendAlerts db parse checkHour now results st).2.summarySent = none ∧
    (checkAndProcess sendAlerts db parse checkHour now results st).1.lastProcessedDate
      = formatDate now ∧
    (checkAndProcess sendAlerts db parse checkHour now results st).1.alertMap = [] ∧
    (∀ (sendAlerts2 : List PriceAlert → Bool) (db2 : String → Except DbErr ℚ)
        (parse2 : String → Option ℚ) (now2 : DateTime)
        (results2 : List (String × FetchOutcome)),
      formatDate now2 = formatDate now →
      (checkAndProcess sendAlerts2 db2 parse2 checkHour now2 results2
          (checkAndProcess sendAlerts db parse checkHour now results st).1).2.summarySent
        = none ∧
      (checkAndProcess sendAlerts2 db2 parse2 checkHour now2 results2
          (checkAndProcess sendAlerts db parse checkHour now results st).1).1.lastProcessedDate
        = formatDate now) := by
  have hcond : now.hour = checkHour ∧ now.minute < checkInterval ∧
      st.lastProcessedDate ≠ formatDate now := ⟨hhour, hmin, hnew⟩
  have hfa : fetchAllPrices results = Except.error "failed to fetch any stock prices" := by
    simp [fetchAllPrices, hfail]
  have hsend : sendDailyReport results = none := by
    simp [sendDailyReport, hfa]
  have h1 : checkAndProcess sendAlerts db parse checkHour now results st =
      (⟨formatDate now, []⟩,
        ⟨none, isMarketOpen now && decide (now.minute % realtimeCheckMinutes = 0), none⟩) := by
    by_cases hmo : isMarketOpen now = true
    · by_cases hm30 : now.minute % realtimeCheckMinutes = 0
      · simp [checkAndProcess, hcond, hmo, hm30, hsend, checkRealtimePriceChanges, hfa,
          resetAlertMap]
      · simp [checkAndProcess, hcond, hmo, hm30, hsend, resetAlertMap]
    · rw [Bool.not_eq_true] at hmo
      simp [checkAndProcess, hcond, hmo, hsend, resetAlertMap]
  refine ⟨by rw [h1], by rw [h1], by rw [h1], ?_⟩
  intro sendAlerts2 db2 parse2 now2 results2 hdate
  rw [h1]
  have hguard : ¬(now2.hour = checkHour ∧ now2.minute < checkInterval ∧
      (⟨formatDate now, []⟩ : BotState).lastProcessedDate ≠ formatDate now2) := by
    rintro ⟨-, -, hc⟩
    exact hc hdate.symm
  have h2 := checkAndProcess_not_due sendAlerts2 db2 parse2 checkHour now2 results2
    ⟨formatDate now, []⟩ hguard
  exact ⟨h2.1, h2.2⟩

/-- Closed instance of C5 (amended) at a concrete failing tick. -/
theorem checkAndProcess_total_failure_spec_witness :
    (checkAndProcess (fun _ => true) (fun _ => Except.ok 100) (fun _ => some 106) 7
        ⟨2025, 1, 2, 7, 0, Weekday.thursday⟩
        [("AAPL", FetchOutcome.fetchFailed AttemptErr.timeout)]
        ⟨"", []⟩).2.summarySent = none ∧
    (checkAndProcess (fun _ => true) (fun _ => Except.ok 100) (fun _ => some 106) 7
        ⟨2025, 1, 2, 7, 0, Weekday.thursday⟩
        [("AAPL", FetchOutcome.fetchFailed AttemptErr.timeout)]
        ⟨"", []⟩).1.lastProcessedDate = formatDate ⟨2025, 1, 2, 7, 0, Weekday.thursday⟩ ∧
    (checkAndProcess (fun _ => true) (fun _ => Except.ok 100) (fun _ => some 106) 7
        ⟨2025, 1, 2, 7, 0, Weekday.thursday⟩
        [("AAPL", FetchOutcome.fetchFailed AttemptErr.timeout)]
        ⟨"", []⟩).1.alertMap = [] := by
  have h := checkAndProcess_total_failure_spec (fun _ => true) (fun _ => Except.ok 100)
    (fun _ => some 106) 7 ⟨2025, 1, 2, 7, 0, Weekday.thursday⟩
    [("AAPL", FetchOutcome.fetchFailed AttemptErr.timeout)] ⟨"", []⟩
    rfl (by decide) (by decide) rfl
  exact ⟨h.1, h.2.1, h.2.2.1⟩
